import Mathlib

/-!
# Verification of the scilpy tissue-aware tracking engine

Shallow embedding of the tracking core of this repository:

* `scilpy/tracking/tissue_tracker.py`   — per-tissue handlers (`get_segment`,
  `_append_to_line`), the module-level `append_to_line` dispatcher and the
  `tissue_trackers` registry;
* `scilpy/tracking/tracker.py`          — `abstractTracker` (handler
  resolution, `propagate`, `initialize`);
* `scilpy/tracking/local_tracking.py`   — `_get_line`, `get_line_from_seed`,
  `get_streamlines` (cover-all-seeds driver) and `get_n_streamlines`
  (fixed-count driver);
* `scilpy/tracking/tissue_configurator.py` — `GmTissue.can_continue`,
  `GmTissue.finalize_streamline`, `NucleiTissue.finalize_streamline`.

Real-valued quantities are modelled over `ℚ` (the code's float arithmetic is
used here only through equalities and comparisons that hold identically over
any ordered field).  External collaborators (the interpolated classification
volume `atlas.getPositionValue`, the direction field `tracker.get_direction`,
the seeding volume, the `np.random` / `random` streams) enter as explicit
function parameters: each draw of the global NumPy generator is a pure
function of the per-seed seeding value and of the position of the draw in
the attempt, which is exactly the property the driver relies on.
-/

/-- A real-valued 3-vector (a `Position` in volume space). -/
abbrev Vec3 : Type := ℚ × ℚ × ℚ

/-- A streamline: ordered list of positions (`line` in the source). -/
abbrev Line : Type := List Vec3

/-- `TrackingDirection` from `trackingField.py`: a 3-vector together with the
index of the discretized sphere direction it came from. -/
structure TrackingDirection where
  v : Vec3
  index : Nat
deriving DecidableEq, Repr

/-- Parallel list of directions (`line_dirs` in the source). -/
abbrev Dirs : Type := List TrackingDirection

/-- Result of a Python call that can raise: `ok` is a normal return, `raised`
an uncaught exception (e.g. a `KeyError` from a bare `dict` lookup). -/
inductive PyResult (α : Type) where
  | ok (a : α)
  | raised
deriving DecidableEq, Repr

/-! ## Direction sampling helpers (`tissue_tracker.tissue_tracker`)

`tracker.get_direction` (a stochastic draw from the spherical-function
distribution) is abstracted as `field : Vec3 → TrackingDirection →
Option TrackingDirection`; `None` models "no valid direction available". -/

/-- `tissue_tracker.getValidDirection` (tissue_tracker.py lines 41-48):
returns the validity flag and either the sampled direction or, when the
field yields none, the incoming direction `v_in`. -/
def getValidDirection (field : Vec3 → TrackingDirection → Option TrackingDirection)
    (pos : Vec3) (v_in : TrackingDirection) : Bool × TrackingDirection :=
  match field pos v_in with
  | none => (false, v_in)
  | some v_out => (true, v_out)

/-- Componentwise scalar multiple of a `Vec3`. -/
def smul3 (a : ℚ) (v : Vec3) : Vec3 := (a * v.1, a * v.2.1, a * v.2.2)

/-- Componentwise sum of two `Vec3`. -/
def add3 (u v : Vec3) : Vec3 := (u.1 + v.1, u.2.1 + v.2.1, u.2.2 + v.2.2)

/-- `wm_tissue_tracker.get_segment` (tissue_tracker.py lines 56-70), the
pass-through (white-matter) 4th-order integration step, translated
clause by clause from the source. -/
def wm_get_segment (field : Vec3 → TrackingDirection → Option TrackingDirection)
    (step_size : ℚ) (pos : Vec3) (v_in : TrackingDirection) :
    Vec3 × TrackingDirection × Bool :=
  let r1 := getValidDirection field pos v_in
  let is_valid_direction := r1.1
  let dir1 := r1.2
  let v1 := dir1.v
  let dir2 := (getValidDirection field (add3 pos (smul3 ((1:ℚ)/2 * step_size) v1)) dir1).2
  let v2 := dir2.v
  let dir3 := (getValidDirection field (add3 pos (smul3 ((1:ℚ)/2 * step_size) v2)) dir2).2
  let v3 := dir3.v
  let dir4 := (getValidDirection field (add3 pos (smul3 step_size v3)) dir3).2
  let v4 := dir4.v
  let newV := smul3 ((1:ℚ)/6) (add3 (add3 (add3 v1 (smul3 2 v2)) (smul3 2 v3)) v4)
  let newDir : TrackingDirection := ⟨newV, dir1.index⟩
  let newPos := add3 pos (smul3 step_size newV)
  (newPos, newDir, is_valid_direction)

/-- The integration step exactly as claim C3 words it: the second direction
sample is taken at the *quarter*-step midpoint `pos + (1/4)·h·v1`, the third
at the half-step midpoint `pos + (1/2)·h·v2`, the fourth at the full step;
weights (1,2,2,1)/6.  (Stated from the claim, for comparison with
`wm_get_segment`.) -/
def rk4QuarterStepClaim (field : Vec3 → TrackingDirection → Option TrackingDirection)
    (step_size : ℚ) (pos : Vec3) (v_in : TrackingDirection) : Vec3 :=
  let dir1 := (getValidDirection field pos v_in).2
  let v1 := dir1.v
  let dir2 := (getValidDirection field (add3 pos (smul3 ((1:ℚ)/4 * step_size) v1)) dir1).2
  let v2 := dir2.v
  let dir3 := (getValidDirection field (add3 pos (smul3 ((1:ℚ)/2 * step_size) v2)) dir2).2
  let v3 := dir3.v
  let dir4 := (getValidDirection field (add3 pos (smul3 step_size v3)) dir3).2
  let v4 := dir4.v
  add3 pos (smul3 step_size (smul3 ((1:ℚ)/6) (add3 (add3 (add3 v1 (smul3 2 v2)) (smul3 2 v3)) v4)))

/-- The integration step as the code actually performs it, worded as a
specification: samples at the current point, twice at the *half*-step
midpoint using successively refined directions, and at the full step;
weights (1,2,2,1)/6; displacement `step_size` along the combined
direction. -/
def rk4HalfStepSpec (field : Vec3 → TrackingDirection → Option TrackingDirection)
    (step_size : ℚ) (pos : Vec3) (v_in : TrackingDirection) : Vec3 :=
  let dir1 := (getValidDirection field pos v_in).2
  let v1 := dir1.v
  let dir2 := (getValidDirection field (add3 pos (smul3 ((1:ℚ)/2 * step_size) v1)) dir1).2
  let v2 := dir2.v
  let dir3 := (getValidDirection field (add3 pos (smul3 ((1:ℚ)/2 * step_size) v2)) dir2).2
  let v3 := dir3.v
  let dir4 := (getValidDirection field (add3 pos (smul3 step_size v3)) dir3).2
  let v4 := dir4.v
  add3 pos (smul3 step_size (smul3 ((1:ℚ)/6) (add3 (add3 (add3 v1 (smul3 2 v2)) (smul3 2 v3)) v4)))

/-- A direction field used to separate the quarter-step reading from the
half-step reading: it returns the y-axis on the half-space `x ≥ 1/2` and the
x-axis elsewhere. -/
def splitField (pos : Vec3) (_ : TrackingDirection) : Option TrackingDirection :=
  if (1:ℚ)/2 ≤ pos.1 then some ⟨(0, 1, 0), 0⟩ else some ⟨(1, 0, 0), 0⟩

/-- C3 counterexample: on `splitField` with unit step from the origin, the
position computed by the code differs from the position prescribed by the
claim's quarter-step sampling. -/
theorem wm_get_segment_ne_quarterStep :
    (wm_get_segment splitField 1 (0, 0, 0) ⟨(1, 0, 0), 0⟩).1 ≠
      rk4QuarterStepClaim splitField 1 (0, 0, 0) ⟨(1, 0, 0), 0⟩ := by
  simp only [wm_get_segment, rk4QuarterStepClaim, getValidDirection, splitField,
    smul3, add3]
  norm_num

/-- C3: `wm_tissue_tracker.get_segment` performs 4th-order fixed-step
integration with direction samples at the current point, twice at the
half-step midpoint with successively refined directions, and at the full
step, combined with weights (1,2,2,1)/6 and applied over `step_size`
(amended from "quarter-step and half-step midpoints": both intermediate
samples are taken at the half step). -/
theorem wm_get_segment_is_rk4_halfstep
    (field : Vec3 → TrackingDirection → Option TrackingDirection)
    (step_size : ℚ) (pos : Vec3) (v_in : TrackingDirection) :
    (wm_get_segment field step_size pos v_in).1 =
      rk4HalfStepSpec field step_size pos v_in := by
  rfl

/-! ## Stochastic-stop continuation and finalize
(`tissue_configurator.py`: `GmTissue.can_continue`,
`GmTissue.finalize_streamline`, `NucleiTissue.finalize_streamline`)

`mask.voxmm_to_value` (nearest / trilinear interpolation of the
classification volume) is abstracted as explicit functions; each
`random.random()` / `random.randint` draw is an explicit parameter. -/

/-- Python's trailing slice `l[-W:]` (for `W = 0`, `l[-0:]` is `l[0:]`,
the whole list). -/
def pyLastWindow (l : List Vec3) (W : Nat) : List Vec3 :=
  if W = 0 then l else l.drop (l.length - W)

/-- `len(np.unique(history)) == 1`: the history is non-empty and all its
entries are equal. -/
def npUniqueLen1 (history : List ℤ) : Bool :=
  match history with
  | [] => false
  | h :: t => t.all (fun x => x = h)

/-- `random.randint(1, hi)`: a value in `[1, hi]`, determined here by the
abstract draw `r`. -/
def randint1 (r : Nat) (hi : Nat) : Nat := 1 + r % hi

/-- `GmTissue.can_continue` (tissue_configurator.py lines 62-77):
`maskNearest`/`maskTri` are the nearest and trilinear lookups of the
classification volume, `tissueId` is `self.id`, `W` is
`self.max_consecutive_steps`, and `r` is the `random.random()` draw. -/
def gm_can_continue (maskNearest : Vec3 → ℤ) (maskTri : Vec3 → ℚ)
    (tissueId : ℚ) (W : Nat) (r : ℚ) (line : Line) : Bool :=
  let history := (pyLastWindow line W).map maskNearest
  if npUniqueLen1 history then false
  else
    let value := maskTri (line.getLastD (0, 0, 0))
    let difference := value / tissueId
    decide (r < difference)

/-- C7 counterexample: with history window `W = 3`, a line holding a single
point - a history shorter than `W` - still forces termination
(`can_continue` is `false`) although the drawn random value `0` is below the
acceptance value `1/2` and would have let growth continue. -/
theorem gm_can_continue_short_history_stops :
    gm_can_continue (fun _ => 5) (fun _ => 1) 2 3 0 [(0, 0, 0)] = false ∧
      (0 : ℚ) < 1 / 2 := by
  constructor
  · rfl
  · norm_num

/-- C7: whenever the trailing `min(len(line), W)` tissue samples are
non-empty and all identical, `GmTissue.can_continue` forces termination
regardless of the drawn random value (amended: a history shorter than `W` is
not exempt - the check applies to however many trailing samples exist, so
even a single identical sample forces termination). -/
theorem gm_can_continue_identical_history_stops
    (maskNearest : Vec3 → ℤ) (maskTri : Vec3 → ℚ) (tissueId : ℚ)
    (W : Nat) (r : ℚ) (line : Line)
    (h : npUniqueLen1 ((pyLastWindow line W).map maskNearest) = true) :
    gm_can_continue maskNearest maskTri tissueId W r line = false := by
  unfold gm_can_continue
  simp [h]

/-- C7 witness: a two-point line with window `W = 2` and identical samples,
at an arbitrary random draw `7/10`. -/
theorem gm_can_continue_identical_history_stops_witness :
    npUniqueLen1 ((pyLastWindow [(0, 0, 0), (1, 0, 0)] 2).map (fun _ => 4)) = true ∧
      gm_can_continue (fun _ => 4) (fun _ => 1) 2 2 (7 / 10) [(0, 0, 0), (1, 0, 0)] = false := by
  exact ⟨by rfl,
    gm_can_continue_identical_history_stops (fun _ => 4) (fun _ => 1) 2 2 (7 / 10)
      [(0, 0, 0), (1, 0, 0)] (by rfl)⟩

/-- A Python runtime value as needed to state what `new_id != id` compares:
either an `int`, or the builtin function `id`. -/
inductive PyVal where
  | int (n : ℤ)
  | builtinId
deriving DecidableEq, Repr

/-- Python `!=` on such values: two ints compare by value; an int and the
builtin function `id` are never equal, so `!=` yields `True`. -/
def pyNe : PyVal → PyVal → Bool
  | .int a, .int b => decide (a ≠ b)
  | _, _ => true

/-- Loop body of `GmTissue.finalize_streamline` (tissue_configurator.py
lines 88-100): for each remaining ending step, propagate one segment from
the line's last point, append the new position, then evaluate
`new_id != id`.  In the source `id` is the Python *builtin* function (the
method reads `id`, not `self.id`), which is what `pyNe (.int new_id)
.builtinId` renders; on `True` the appended point is popped and the loop
breaks. -/
def gmFinalizeLoop (maskValue : Vec3 → ℤ)
    (prop : Vec3 → TrackingDirection → Vec3 × TrackingDirection) :
    Nat → Line → TrackingDirection → Line
  | 0, line, _ => line
  | n + 1, line, last_dir =>
    let pd := prop (line.getLastD (0, 0, 0)) last_dir
    let line' := line ++ [pd.1]
    let new_id := maskValue pd.1
    if pyNe (.int new_id) .builtinId then line'.dropLast
    else gmFinalizeLoop maskValue prop n line' pd.2

/-- `GmTissue.finalize_streamline` (tissue_configurator.py lines 82-103).
`is_valid_endpoint` is `True` for `GmTissue`; `rand` models the draw of
`random.randint(1, max_nb_ending_steps)` from the generator seeded by
`hash((tuple(line[-1]), tracker.rng_seed))`; `tissueId` is `self.id`,
which the loop's comparison never consults (it reads the builtin `id`). -/
def gm_finalize (maskValue : Vec3 → ℤ)
    (prop : Vec3 → TrackingDirection → Vec3 × TrackingDirection)
    (rand : Nat) (maxEnding : Nat) (tissueId : ℤ)
    (line : Line) (last_dir : TrackingDirection) : Line :=
  let _ := tissueId
  let nb_ending_steps := if maxEnding ≠ 0 then randint1 rand maxEnding else maxEnding
  gmFinalizeLoop maskValue prop nb_ending_steps line last_dir

/-- Loop of `NucleiTissue.finalize_streamline` (tissue_configurator.py
lines 143-156): identical stepping, with `return line` in place of
`break` after the rollback. -/
def nucleiFinalizeLoop (maskValue : Vec3 → ℤ)
    (prop : Vec3 → TrackingDirection → Vec3 × TrackingDirection) :
    Nat → Line → TrackingDirection → Line
  | 0, line, _ => line
  | n + 1, line, last_dir =>
    let pd := prop (line.getLastD (0, 0, 0)) last_dir
    let line' := line ++ [pd.1]
    let new_id := maskValue pd.1
    if pyNe (.int new_id) .builtinId then line'.dropLast
    else nucleiFinalizeLoop maskValue prop n line' pd.2

/-- `NucleiTissue.finalize_streamline` (tissue_configurator.py lines
137-158); `is_valid_endpoint` is the `stop_in_nuclei` flag, and when it is
`False` the method returns `[]`. -/
def nuclei_finalize (maskValue : Vec3 → ℤ)
    (prop : Vec3 → TrackingDirection → Vec3 × TrackingDirection)
    (rand : Nat) (maxEnding : Nat) (tissueId : ℤ) (stop_in_nuclei : Bool)
    (line : Line) (last_dir : TrackingDirection) : Line :=
  let _ := tissueId
  if stop_in_nuclei then
    let nb_ending_steps := if maxEnding ≠ 0 then randint1 rand maxEnding else maxEnding
    nucleiFinalizeLoop maskValue prop nb_ending_steps line last_dir
  else []

/-- The gm finalize loop returns its input line whatever the step count:
the first iteration (if any) appends a point, finds `new_id != id` true,
pops the point and breaks. -/
theorem gmFinalizeLoop_id (maskValue : Vec3 → ℤ)
    (prop : Vec3 → TrackingDirection → Vec3 × TrackingDirection) :
    ∀ (n : Nat) (line : Line) (last_dir : TrackingDirection),
      gmFinalizeLoop maskValue prop n line last_dir = line
  | 0, _, _ => rfl
  | _ + 1, line, last_dir => by
    unfold gmFinalizeLoop
    simp [pyNe]

/-- The nuclei finalize loop returns its input line whatever the step
count, for the same reason. -/
theorem nucleiFinalizeLoop_id (maskValue : Vec3 → ℤ)
    (prop : Vec3 → TrackingDirection → Vec3 × TrackingDirection) :
    ∀ (n : Nat) (line : Line) (last_dir : TrackingDirection),
      nucleiFinalizeLoop maskValue prop n line last_dir = line
  | 0, _, _ => rfl
  | _ + 1, line, last_dir => by
    unfold nucleiFinalizeLoop
    simp [pyNe]

/-- C6: because the source compares `new_id` with the Python builtin `id`
instead of `self.id`, the comparison is always true: the very first extra
ending step is rolled back and finalization stops, for every mask - even
one whose label at the new point equals the handler's own label - so the
finalize phase of both stochastic-stop handlers returns the input line
unchanged and never keeps a point. -/
theorem finalize_always_rolls_back (maskValue : Vec3 → ℤ)
    (prop : Vec3 → TrackingDirection → Vec3 × TrackingDirection)
    (rand : Nat) (maxEnding : Nat) (tissueId : ℤ)
    (line : Line) (last_dir : TrackingDirection) :
    gm_finalize maskValue prop rand maxEnding tissueId line last_dir = line ∧
      nuclei_finalize maskValue prop rand maxEnding tissueId true line last_dir = line := by
  refine ⟨?_, ?_⟩
  · unfold gm_finalize
    exact gmFinalizeLoop_id maskValue prop _ line last_dir
  · unfold nuclei_finalize
    simp only [if_pos rfl]
    exact nucleiFinalizeLoop_id maskValue prop _ line last_dir

/-! ## Tissue handler registry and appends (`tissue_tracker.py`, `tracker.py`)

The per-label handler classes carry no per-instance state that the append
path reads other than `self.tracker` (for the atlas) and
`self.tissue_value`, so a handler is modelled by its class alone
(`HandlerKind`).  The tracker object is modelled by its immutable data:
the set of atlas labels its `tracker_functions` dict was built from, the
classification lookup, the (stochastic) `propagate` step and the initial
direction lookup; each `np.random` draw is read off an explicit stream. -/

/-- One class per discrete tissue label (tissue_tracker.py).
`hippocampus`, `caudate`, `amygdala`, `accumbens` and `thalamus` inherit
the base-class `_append_to_line`. -/
inductive HandlerKind where
  | background | wm | gm | csf | putamen | pallidum
  | hippocampus | caudate | amygdala | accumbens | thalamus
deriving DecidableEq, Repr

/-- The `tissue_trackers` registry dict (tissue_tracker.py lines 232-246);
`none` for labels that have no registered handler class. -/
def registryKind : ℤ → Option HandlerKind
  | 0 => some .background
  | 1 => some .wm
  | 2 => some .gm
  | 3 => some .csf
  | 4 => some .putamen
  | 5 => some .pallidum
  | 6 => some .hippocampus
  | 7 => some .caudate
  | 8 => some .amygdala
  | 9 => some .accumbens
  | 11 => some .thalamus
  | 12 => some .background
  | 10 => some .background
  | _ => none

/-- The immutable data of an `abstractTracker` (tracker.py lines 7-22) as
the append/growth path reads it.  `labels` is `np.unique(atlas.data)`, the
key set of `tracker_functions`; `atlasValue` is
`atlas.getPositionValue` / `getPositionValueFromAtlas` (as `int`);
`propagate` is the stochastic segment step `tracker.propagate` minus its
label lookup (the drawn `np.random` value is the first argument, `none`
models the `(None, None, None)` triple); `initDirs` is
`tracking_field.get_init_direction`; `inBound` is `isPositionInBound`. -/
structure TrackerModel where
  labels : List ℤ
  atlasValue : Vec3 → ℤ
  propagate : Nat → Vec3 → TrackingDirection → Option (Vec3 × TrackingDirection)
  initDirs : Vec3 → Option (TrackingDirection × TrackingDirection)
  inBound : Vec3 → Bool

/-- `np.random.randint(lo, hi)`: a value in `[lo, hi)` determined by the
abstract draw `r`. -/
def npRandint (r lo hi : Nat) : Nat := lo + r % (hi - lo)

/-- Python's slice `l[-(c+1):-1]`: the window of (up to) `c` entries that
precedes the last entry. -/
def pyWindowBeforeLast (l : Line) (c : Nat) : Line :=
  (l.drop (l.length - (c + 1))).dropLast

/-- `putamen_tissue_tracker._append_to_line` /
`pallidum_tissue_tracker._append_to_line` (tissue_tracker.py lines 124-143
and 177-196): draw a window size in `[1, 20)`, read the atlas over the
window `line[-cur-1:-1]`, and stop (with the point still appended) when
the line is longer than 20 points and the window's values are all equal to
the handler's own `tissue_value`. -/
def nucleiAppend (T : TrackerModel) (tissueValue : ℤ) (r : Nat)
    (new_pos : Vec3) (new_dir : TrackingDirection) (line : Line) (dirs : Dirs) :
    Option Line × Option Dirs × Bool :=
  let max_iter_in_nulcei := 20
  let cur_nb_iter := npRandint r 1 max_iter_in_nulcei
  let last_n_steps := pyWindowBeforeLast line cur_nb_iter
  let history := last_n_steps.map T.atlasValue
  let is_stopping :=
    decide (line.length > max_iter_in_nulcei) &&
      (npUniqueLen1 history && decide (history.headD 0 = tissueValue))
  (some (line ++ [new_pos]), some (dirs ++ [new_dir]), is_stopping)

/-- `_append_to_line` of each handler class.  Base class (lines 35-39) and
its plain heirs: append one point and one direction and report finished;
`wm` (72-75): append, not finished; `gm` (85-88): append, finished;
`csf` (98-99) and `background` (109-110): null both lists, finished. -/
def appendOfKind (T : TrackerModel) (r : Nat) (k : HandlerKind)
    (new_pos : Vec3) (new_dir : TrackingDirection) (line : Line) (dirs : Dirs) :
    Option Line × Option Dirs × Bool :=
  match k with
  | .background => (none, none, true)
  | .wm => (some (line ++ [new_pos]), some (dirs ++ [new_dir]), false)
  | .gm => (some (line ++ [new_pos]), some (dirs ++ [new_dir]), true)
  | .csf => (none, none, true)
  | .putamen => nucleiAppend T 4 r new_pos new_dir line dirs
  | .pallidum => nucleiAppend T 5 r new_pos new_dir line dirs
  | _ => (some (line ++ [new_pos]), some (dirs ++ [new_dir]), true)

/-- Module-level `append_to_line` (tissue_tracker.py lines 224-229): keys
absent from the `tissue_trackers` registry return the null-terminal triple;
registered keys go through the bare lookup
`tracker.tracker_functions[tissue_key]`, which raises a `KeyError`
(modelled by `.raised`) when the key is not among the tracker's labels. -/
def append_to_line (T : TrackerModel) (r : Nat) (tissue_key : ℤ)
    (new_pos : Vec3) (new_dir : TrackingDirection) (line : Line) (dirs : Dirs) :
    PyResult (Option Line × Option Dirs × Bool) :=
  match registryKind tissue_key with
  | some k =>
    if tissue_key ∈ T.labels then
      .ok (appendOfKind T r k new_pos new_dir line dirs)
    else .raised
  | none => .ok (none, none, true)

/-- `abstractTracker.get_tissue_tracker_function` (tracker.py lines 40-42):
a bare dictionary lookup `self.tracker_functions[str(tissue)]` with no
fallback; `none` models the `KeyError` raised when the label observed at
`pos` has no handler in `tracker_functions`. -/
def get_tissue_tracker_function (T : TrackerModel) (pos : Vec3) :
    Option HandlerKind :=
  let tissue := T.atlasValue pos
  if tissue ∈ T.labels then registryKind tissue else none

/-- A tracker over an atlas whose classification reports label 13 - a label
with no registered handler - at every position. -/
def unknownLabelTracker : TrackerModel where
  labels := [0, 1]
  atlasValue := fun _ => 13
  propagate := fun _ _ _ => none
  initDirs := fun _ => none
  inBound := fun _ => true

/-- C5 counterexample: at a position carrying the unregistered label 13 the
tracker's handler resolution raises (`none`), it does not resolve to the
background handler. -/
theorem unknown_label_resolution_raises :
    get_tissue_tracker_function unknownLabelTracker (0, 0, 0) = none ∧
      (none : Option HandlerKind) ≠ some HandlerKind.background := by
  exact ⟨rfl, by decide⟩

/-- C5: a tissue key with no registered handler reaching `append_to_line`
during growth is handled without error: the dispatcher returns the
null-terminal triple `(None, None, True)`, exactly the result the
background (always-terminal) handler's append produces, so the growth
attempt is discarded; handler resolution itself
(`get_tissue_tracker_function`) has no such fallback and raises instead
(amended: the fallback lives in `append_to_line` and yields the background
handler's result rather than routing the position to the background
handler, and an unknown label hitting `get_tissue_tracker_function` is an
error). -/
theorem unknown_key_append_is_background_result (T : TrackerModel) (r : Nat)
    (key : ℤ) (new_pos : Vec3) (new_dir : TrackingDirection)
    (line : Line) (dirs : Dirs) (h : registryKind key = none) :
    append_to_line T r key new_pos new_dir line dirs = .ok (none, none, true) ∧
      appendOfKind T r .background new_pos new_dir line dirs = (none, none, true) := by
  unfold append_to_line
  rw [h]
  exact ⟨rfl, rfl⟩

/-- C5 witness: key 13 against the concrete tracker. -/
theorem unknown_key_append_is_background_result_witness :
    registryKind 13 = none ∧
      (append_to_line unknownLabelTracker 0 13 (0, 0, 0) ⟨(1, 0, 0), 0⟩ [] [] =
          .ok (none, none, true) ∧
        appendOfKind unknownLabelTracker 0 .background (0, 0, 0) ⟨(1, 0, 0), 0⟩ [] [] =
          (none, none, true)) := by
  exact ⟨rfl, unknown_key_append_is_background_result unknownLabelTracker 0 13
    (0, 0, 0) ⟨(1, 0, 0), 0⟩ [] [] rfl⟩

/-! ## The growth loop `_get_line` (local_tracking.py lines 318-348)

The loop keeps `line`/`line_dirs`, calls `tracker.propagate` on their last
entries, and dispatches the returned tissue label to `append_to_line`.
`tracker.propagate` (tracker.py lines 44-54) returns the label read at the
new position, which is `atlasValue new_pos` here.  The `np.random` draws
of one iteration are read at stream offsets `2*t` (inside `propagate`) and
`2*t + 1` (inside the handler append) - distinct positions of the
per-seed stream, which is all the code relies on. -/

/-- Outcome of one iteration of the `_get_line` while-loop body. -/
inductive BodyOut where
  | cont (t' : Nat) (line' : Line) (dirs' : Dirs)
  | finish (l : Line) (d : Dirs)
  | nullPropagate
  | nullAppend
  | raisedKey
deriving DecidableEq, Repr

/-- One iteration of the `_get_line` loop body (local_tracking.py lines
324-336): propagate from the last point, break on the null triple, append
through the dispatcher, break when it nulls the lists, return the line
when it signals finished, otherwise continue. -/
def loopBody (T : TrackerModel) (rng : Nat → Nat) (t : Nat)
    (line : Line) (dirs : Dirs) : BodyOut :=
  match T.propagate (rng (2 * t)) (line.getLastD (0, 0, 0)) (dirs.getLastD ⟨(0, 0, 0), 0⟩) with
  | none => .nullPropagate
  | some (new_pos, new_dir) =>
    let tissue_key := T.atlasValue new_pos
    match append_to_line T (rng (2 * t + 1)) tissue_key new_pos new_dir line dirs with
    | .raised => .raisedKey
    | .ok (some line', some dirs', is_finished) =>
      if is_finished then .finish line' dirs' else .cont (t + 1) line' dirs'
    | .ok _ => .nullAppend

/-- How the `_get_line` while-loop exited. -/
inductive LineExit where
  | finished (l : Line) (d : Dirs)
  | maxReached
  | nullPropagate
  | nullAppend
  | raisedKey
  | fuelOut
deriving DecidableEq, Repr

/-- The `_get_line` while-loop: guard `len(line) < max_nbr_pts`, body
`loopBody`.  `fuel` only bounds the recursion depth; `getLineLoop_no_fuelOut`
shows `.fuelOut` is unreachable when `fuel + line.length` reaches
`maxPts`, every continuing iteration growing `line` by one point. -/
def getLineLoop (T : TrackerModel) (rng : Nat → Nat) (maxPts : Nat) :
    Nat → Nat → Line → Dirs → LineExit
  | 0, _, line, _ => if line.length < maxPts then .fuelOut else .maxReached
  | fuel + 1, t, line, dirs =>
    if line.length < maxPts then
      match loopBody T rng t line dirs with
      | .cont t' line' dirs' => getLineLoop T rng maxPts fuel t' line' dirs'
      | .finish l d => .finished l d
      | .nullPropagate => .nullPropagate
      | .nullAppend => .nullAppend
      | .raisedKey => .raisedKey
    else .maxReached

/-- Exit of the `_get_line` loop started, as in the source (lines 319-320),
from `line = [tracker.init_pos]` and `line_dirs = [forward_dir]` or
`[backward_dir]`. -/
def lineExitOf (T : TrackerModel) (rng : Nat → Nat) (maxPts : Nat)
    (init_pos : Vec3) (dir0 : TrackingDirection) : LineExit :=
  getLineLoop T rng maxPts maxPts 0 [init_pos] [dir0]

/-- Return value of `_get_line`: the grown line when the loop exited through
`is_finished`, `None` (lines 338) on every other exit.  The block at lines
340-348 (bounds trimming via `tracker.isPositionInBound`) sits after this
unconditional return. -/
def getLineResult (T : TrackerModel) (rng : Nat → Nat) (maxPts : Nat)
    (init_pos : Vec3) (dir0 : TrackingDirection) : Option Line :=
  match lineExitOf T rng maxPts init_pos dir0 with
  | .finished l _ => some l
  | _ => none

/-- Every append either nulls both lists or appends exactly the new
position to `line` and exactly the new direction to `line_dirs`. -/
theorem appendOfKind_shape (T : TrackerModel) (r : Nat) (k : HandlerKind)
    (new_pos : Vec3) (new_dir : TrackingDirection) (line : Line) (dirs : Dirs) :
    appendOfKind T r k new_pos new_dir line dirs = (none, none, true) ∨
      ∃ fin, appendOfKind T r k new_pos new_dir line dirs =
        (some (line ++ [new_pos]), some (dirs ++ [new_dir]), fin) := by
  cases k with
  | background => exact Or.inl rfl
  | csf => exact Or.inl rfl
  | wm => exact Or.inr ⟨false, rfl⟩
  | gm => exact Or.inr ⟨true, rfl⟩
  | putamen => exact Or.inr ⟨_, rfl⟩
  | pallidum => exact Or.inr ⟨_, rfl⟩
  | hippocampus => exact Or.inr ⟨true, rfl⟩
  | caudate => exact Or.inr ⟨true, rfl⟩
  | amygdala => exact Or.inr ⟨true, rfl⟩
  | accumbens => exact Or.inr ⟨true, rfl⟩
  | thalamus => exact Or.inr ⟨true, rfl⟩

/-- Dispatcher equation: a registered key known to the tracker calls the
handler's append. -/
theorem append_to_line_reg (T : TrackerModel) (r : Nat) (key : ℤ)
    (new_pos : Vec3) (new_dir : TrackingDirection) (line : Line) (dirs : Dirs)
    (k : HandlerKind) (hk : registryKind key = some k) (hmem : key ∈ T.labels) :
    append_to_line T r key new_pos new_dir line dirs =
      .ok (appendOfKind T r k new_pos new_dir line dirs) := by
  unfold append_to_line
  rw [hk]
  simp [hmem]

/-- Dispatcher equation: a registered key outside the tracker's labels
raises. -/
theorem append_to_line_keyError (T : TrackerModel) (r : Nat) (key : ℤ)
    (new_pos : Vec3) (new_dir : TrackingDirection) (line : Line) (dirs : Dirs)
    (k : HandlerKind) (hk : registryKind key = some k) (hmem : key ∉ T.labels) :
    append_to_line T r key new_pos new_dir line dirs = .raised := by
  unfold append_to_line
  rw [hk]
  simp [hmem]

/-- Dispatcher equation: an unregistered key returns the null-terminal
triple. -/
theorem append_to_line_unreg (T : TrackerModel) (r : Nat) (key : ℤ)
    (new_pos : Vec3) (new_dir : TrackingDirection) (line : Line) (dirs : Dirs)
    (hk : registryKind key = none) :
    append_to_line T r key new_pos new_dir line dirs = .ok (none, none, true) := by
  unfold append_to_line
  rw [hk]

/-- A continuing loop iteration appends exactly one point and one
direction and advances the draw counter. -/
theorem loopBody_cont_shape (T : TrackerModel) (rng : Nat → Nat) (t : Nat)
    (line : Line) (dirs : Dirs) (t' : Nat) (line' : Line) (dirs' : Dirs)
    (h : loopBody T rng t line dirs = .cont t' line' dirs') :
    t' = t + 1 ∧ ∃ p d, line' = line ++ [p] ∧ dirs' = dirs ++ [d] := by
  unfold loopBody at h
  cases hp : T.propagate (rng (2 * t)) (line.getLastD (0, 0, 0))
      (dirs.getLastD ⟨(0, 0, 0), 0⟩) with
  | none => rw [hp] at h; exact absurd h (by simp)
  | some pd =>
    rw [hp] at h
    obtain ⟨new_pos, new_dir⟩ := pd
    simp only at h
    cases hk : registryKind (T.atlasValue new_pos) with
    | none =>
      rw [append_to_line_unreg T _ _ _ _ _ _ hk] at h
      exact absurd h (by simp)
    | some k =>
      by_cases hmem : T.atlasValue new_pos ∈ T.labels
      · rw [append_to_line_reg T _ _ _ _ _ _ k hk hmem] at h
        rcases appendOfKind_shape T (rng (2 * t + 1)) k new_pos new_dir line dirs with
          hnull | ⟨fin, happ⟩
        · rw [hnull] at h; exact absurd h (by simp)
        · rw [happ] at h
          cases fin with
          | true => exact absurd h (by simp)
          | false =>
            simp only [Bool.false_eq_true, if_false] at h
            cases h
            exact ⟨rfl, new_pos, new_dir, rfl, rfl⟩
      · rw [append_to_line_keyError T _ _ _ _ _ _ k hk hmem] at h
        exact absurd h (by simp)

/-- A finishing loop iteration also appends exactly one point and one
direction. -/
theorem loopBody_finish_shape (T : TrackerModel) (rng : Nat → Nat) (t : Nat)
    (line : Line) (dirs : Dirs) (l : Line) (d : Dirs)
    (h : loopBody T rng t line dirs = .finish l d) :
    ∃ p dd, l = line ++ [p] ∧ d = dirs ++ [dd] := by
  unfold loopBody at h
  cases hp : T.propagate (rng (2 * t)) (line.getLastD (0, 0, 0))
      (dirs.getLastD ⟨(0, 0, 0), 0⟩) with
  | none => rw [hp] at h; exact absurd h (by simp)
  | some pd =>
    rw [hp] at h
    obtain ⟨new_pos, new_dir⟩ := pd
    simp only at h
    cases hk : registryKind (T.atlasValue new_pos) with
    | none =>
      rw [append_to_line_unreg T _ _ _ _ _ _ hk] at h
      exact absurd h (by simp)
    | some k =>
      by_cases hmem : T.atlasValue new_pos ∈ T.labels
      · rw [append_to_line_reg T _ _ _ _ _ _ k hk hmem] at h
        rcases appendOfKind_shape T (rng (2 * t + 1)) k new_pos new_dir line dirs with
          hnull | ⟨fin, happ⟩
        · rw [hnull] at h; exact absurd h (by simp)
        · rw [happ] at h
          cases fin with
          | false => exact absurd h (by simp)
          | true =>
            simp only [if_true] at h
            cases h
            exact ⟨new_pos, new_dir, rfl, rfl⟩
      · rw [append_to_line_keyError T _ _ _ _ _ _ k hk hmem] at h
        exact absurd h (by simp)

/-- With fuel at least `maxPts - line.length` the loop never runs out of
fuel: every continuing iteration grows the line by one point, so the guard
`len(line) < max_nbr_pts` fails first. -/
theorem getLineLoop_no_fuelOut (T : TrackerModel) (rng : Nat → Nat) (maxPts : Nat) :
    ∀ (fuel t : Nat) (line : Line) (dirs : Dirs), maxPts ≤ fuel + line.length →
      getLineLoop T rng maxPts fuel t line dirs ≠ .fuelOut
  | 0, t, line, dirs => by
    intro hle
    unfold getLineLoop
    rw [if_neg (by omega)]
    simp
  | fuel + 1, t, line, dirs => by
    intro hle
    unfold getLineLoop
    by_cases hlt : line.length < maxPts
    · rw [if_pos hlt]
      cases hb : loopBody T rng t line dirs with
      | cont t' line' dirs' =>
        obtain ⟨-, p, d, hl, -⟩ := loopBody_cont_shape T rng t line dirs t' line' dirs' hb
        exact getLineLoop_no_fuelOut T rng maxPts fuel t' line' dirs'
          (by simp [hl]; omega)
      | finish l d => simp
      | nullPropagate => simp
      | nullAppend => simp
      | raisedKey => simp
    · rw [if_neg hlt]
      simp

/-- A line returned through `is_finished` is strictly longer than the line
the loop started from and never exceeds `max_nbr_pts`. -/
theorem getLineLoop_finished_length (T : TrackerModel) (rng : Nat → Nat) (maxPts : Nat) :
    ∀ (fuel t : Nat) (line : Line) (dirs : Dirs) (l : Line) (d : Dirs),
      getLineLoop T rng maxPts fuel t line dirs = .finished l d →
      line.length < maxPts ∧ line.length + 1 ≤ l.length ∧ l.length ≤ maxPts
  | 0, t, line, dirs, l, d => by
    intro h
    unfold getLineLoop at h
    by_cases hlt : line.length < maxPts
    · rw [if_pos hlt] at h; exact absurd h (by simp)
    · rw [if_neg hlt] at h; exact absurd h (by simp)
  | fuel + 1, t, line, dirs, l, d => by
    intro h
    unfold getLineLoop at h
    by_cases hlt : line.length < maxPts
    · rw [if_pos hlt] at h
      cases hb : loopBody T rng t line dirs with
      | cont t' line' dirs' =>
        rw [hb] at h
        obtain ⟨-, p, dd, hl, -⟩ := loopBody_cont_shape T rng t line dirs t' line' dirs' hb
        obtain ⟨-, h2, h3⟩ :=
          getLineLoop_finished_length T rng maxPts fuel t' line' dirs' l d h
        refine ⟨hlt, ?_, h3⟩
        rw [hl] at h2
        simp at h2
        omega
      | finish l' d' =>
        rw [hb] at h
        simp only [LineExit.finished.injEq] at h
        obtain ⟨h1, -⟩ := h
        obtain ⟨p, dd, hl, -⟩ := loopBody_finish_shape T rng t line dirs l' d' hb
        subst h1
        rw [hl]
        simp
        omega
      | nullPropagate => rw [hb] at h; exact absurd h (by simp)
      | nullAppend => rw [hb] at h; exact absurd h (by simp)
      | raisedKey => rw [hb] at h; exact absurd h (by simp)
    · rw [if_neg hlt] at h; exact absurd h (by simp)

/-- The handler appends read the tracker only through `atlasValue`. -/
theorem appendOfKind_congr (T₁ T₂ : TrackerModel)
    (hav : T₁.atlasValue = T₂.atlasValue) (r : Nat) (k : HandlerKind)
    (new_pos : Vec3) (new_dir : TrackingDirection) (line : Line) (dirs : Dirs) :
    appendOfKind T₁ r k new_pos new_dir line dirs =
      appendOfKind T₂ r k new_pos new_dir line dirs := by
  cases k <;> simp [appendOfKind, nucleiAppend, hav]

/-- The dispatcher reads the tracker only through `labels` and
`atlasValue`. -/
theorem append_to_line_congr (T₁ T₂ : TrackerModel)
    (hlab : T₁.labels = T₂.labels) (hav : T₁.atlasValue = T₂.atlasValue)
    (r : Nat) (key : ℤ) (new_pos : Vec3) (new_dir : TrackingDirection)
    (line : Line) (dirs : Dirs) :
    append_to_line T₁ r key new_pos new_dir line dirs =
      append_to_line T₂ r key new_pos new_dir line dirs := by
  cases hk : registryKind key with
  | none =>
    rw [append_to_line_unreg T₁ _ _ _ _ _ _ hk, append_to_line_unreg T₂ _ _ _ _ _ _ hk]
  | some k =>
    by_cases hmem : key ∈ T₂.labels
    · rw [append_to_line_reg T₁ _ _ _ _ _ _ k hk (hlab ▸ hmem),
        append_to_line_reg T₂ _ _ _ _ _ _ k hk hmem,
        appendOfKind_congr T₁ T₂ hav]
    · rw [append_to_line_keyError T₁ _ _ _ _ _ _ k hk (hlab ▸ hmem),
        append_to_line_keyError T₂ _ _ _ _ _ _ k hk hmem]

/-- The loop body reads the tracker only through `labels`, `atlasValue`
and `propagate` - in particular never through `inBound`. -/
theorem loopBody_congr (T₁ T₂ : TrackerModel)
    (hlab : T₁.labels = T₂.labels) (hav : T₁.atlasValue = T₂.atlasValue)
    (hprop : T₁.propagate = T₂.propagate) (rng : Nat → Nat) (t : Nat)
    (line : Line) (dirs : Dirs) :
    loopBody T₁ rng t line dirs = loopBody T₂ rng t line dirs := by
  unfold loopBody
  rw [hprop]
  cases T₂.propagate (rng (2 * t)) (line.getLastD (0, 0, 0))
      (dirs.getLastD ⟨(0, 0, 0), 0⟩) with
  | none => rfl
  | some pd =>
    obtain ⟨new_pos, new_dir⟩ := pd
    simp only
    rw [hav, append_to_line_congr T₁ T₂ hlab hav]

/-- The whole loop reads the tracker only through `labels`, `atlasValue`
and `propagate`. -/
theorem getLineLoop_congr (T₁ T₂ : TrackerModel)
    (hlab : T₁.labels = T₂.labels) (hav : T₁.atlasValue = T₂.atlasValue)
    (hprop : T₁.propagate = T₂.propagate) (rng : Nat → Nat) (maxPts : Nat) :
    ∀ (fuel t : Nat) (line : Line) (dirs : Dirs),
      getLineLoop T₁ rng maxPts fuel t line dirs =
        getLineLoop T₂ rng maxPts fuel t line dirs
  | 0, _, _, _ => rfl
  | fuel + 1, t, line, dirs => by
    unfold getLineLoop
    by_cases hlt : line.length < maxPts
    · rw [if_pos hlt, if_pos hlt, loopBody_congr T₁ T₂ hlab hav hprop rng t line dirs]
      cases loopBody T₂ rng t line dirs with
      | cont t' line' dirs' =>
        exact getLineLoop_congr T₁ T₂ hlab hav hprop rng maxPts fuel t' line' dirs'
      | finish l d => rfl
      | nullPropagate => rfl
      | nullAppend => rfl
      | raisedKey => rfl
    · rw [if_neg hlt, if_neg hlt]

/-- C9: `_get_line` returns a line exactly when some handler append
signalled `is_finished`; the max-points, null-propagate and null-append
exits all return `None`; and the result never depends on the tracker's
`isPositionInBound`, the only input of the bounds-trimming block placed
after the function's unconditional `return None` - that block never
executes. -/
theorem get_line_some_iff_finished (T : TrackerModel) (rng : Nat → Nat)
    (maxPts : Nat) (init_pos : Vec3) (dir0 : TrackingDirection) :
    (∀ l : Line, getLineResult T rng maxPts init_pos dir0 = some l ↔
        ∃ d : Dirs, lineExitOf T rng maxPts init_pos dir0 = .finished l d) ∧
      ∀ f : Vec3 → Bool,
        getLineResult { T with inBound := f } rng maxPts init_pos dir0 =
          getLineResult T rng maxPts init_pos dir0 := by
  constructor
  · intro l
    unfold getLineResult
    cases hE : lineExitOf T rng maxPts init_pos dir0 <;>
      simp [hE, eq_comm]
  · intro f
    unfold getLineResult lineExitOf
    rw [getLineLoop_congr { T with inBound := f } T rfl rfl rfl rng maxPts]

/-- C9 witness: on the concrete all-label-13 tracker the loop exits through
the null-propagate break and `_get_line` returns `None`. -/
theorem get_line_some_iff_finished_witness :
    (getLineResult unknownLabelTracker (fun _ => 0) 5 (0, 0, 0) ⟨(1, 0, 0), 0⟩ =
        some [(0, 0, 0)] ↔
      ∃ d : Dirs, lineExitOf unknownLabelTracker (fun _ => 0) 5 (0, 0, 0) ⟨(1, 0, 0), 0⟩ =
        .finished [(0, 0, 0)] d) ∧
      getLineResult { unknownLabelTracker with inBound := fun _ => false }
          (fun _ => 0) 5 (0, 0, 0) ⟨(1, 0, 0), 0⟩ =
        getLineResult unknownLabelTracker (fun _ => 0) 5 (0, 0, 0) ⟨(1, 0, 0), 0⟩ := by
  exact ⟨(get_line_some_iff_finished unknownLabelTracker (fun _ => 0) 5
      (0, 0, 0) ⟨(1, 0, 0), 0⟩).1 [(0, 0, 0)],
    (get_line_some_iff_finished unknownLabelTracker (fun _ => 0) 5
      (0, 0, 0) ⟨(1, 0, 0), 0⟩).2 (fun _ => false)⟩

/-- States `(t, line, line_dirs)` observable during one `_get_line` growth
attempt: the initial state of lines 319-320 and every state produced by a
continuing loop iteration. -/
inductive GrowthState (T : TrackerModel) (rng : Nat → Nat) (maxPts : Nat)
    (init_pos : Vec3) (dir0 : TrackingDirection) : Nat → Line → Dirs → Prop where
  | start : GrowthState T rng maxPts init_pos dir0 0 [init_pos] [dir0]
  | step {t : Nat} {line : Line} {dirs : Dirs} {t' : Nat} {line' : Line} {dirs' : Dirs} :
      GrowthState T rng maxPts init_pos dir0 t line dirs →
      line.length < maxPts →
      loopBody T rng t line dirs = .cont t' line' dirs' →
      GrowthState T rng maxPts init_pos dir0 t' line' dirs'

/-- C10: the growth state starts with one position and one direction, every
handler append either appends exactly one position and one direction or
nulls both lists, and consequently `len(line) == len(line_dirs)` at every
observation point of the growth loop. -/
theorem line_and_dirs_parallel :
    (∀ (T : TrackerModel) (r : Nat) (k : HandlerKind) (p : Vec3)
        (d : TrackingDirection) (l : Line) (ds : Dirs),
      appendOfKind T r k p d l ds = (none, none, true) ∨
        ∃ fin, appendOfKind T r k p d l ds =
          (some (l ++ [p]), some (ds ++ [d]), fin)) ∧
      ∀ (T : TrackerModel) (rng : Nat → Nat) (maxPts : Nat) (init_pos : Vec3)
        (dir0 : TrackingDirection) (t : Nat) (line : Line) (dirs : Dirs),
        GrowthState T rng maxPts init_pos dir0 t line dirs →
        line.length = dirs.length := by
  refine ⟨appendOfKind_shape, ?_⟩
  intro T rng maxPts init_pos dir0 t line dirs h
  induction h with
  | start => rfl
  | step hprev hlt hbody ih =>
    obtain ⟨-, p, d, hl, hd⟩ := loopBody_cont_shape _ _ _ _ _ _ _ _ hbody
    rw [hl, hd]
    simp [ih]

/-- C10 witness: the invariant applied to the initial observation point of
a concrete growth attempt. -/
theorem line_and_dirs_parallel_witness :
    ([(0, 0, 0)] : Line).length = ([⟨(1, 0, 0), 0⟩] : Dirs).length := by
  exact line_and_dirs_parallel.2 unknownLabelTracker (fun _ => 0) 5 (0, 0, 0)
    ⟨(1, 0, 0), 0⟩ 0 [(0, 0, 0)] [⟨(1, 0, 0), 0⟩] GrowthState.start

/-! ## Seed growth: `get_line_from_seed` (local_tracking.py lines 250-315) -/

/-- The merge of lines 292-294: `line.reverse()`, `line.pop()`,
`line.extend(backward_line)` - the *forward* line is reversed, its last
element (the seed point, now at the end) popped, and the backward line
appended. -/
def mergeLines (line backward_line : Line) : Line :=
  line.reverse.dropLast ++ backward_line

/-- The merge as claim C8 words it: the *backward*-grown sequence is
reversed and concatenated onto the forward line, with the duplicated seed
point removed at the junction.  (Stated from the claim, for comparison
with `mergeLines`.) -/
def mergeClaimSpec (forward_line backward_line : Line) : Line :=
  backward_line.reverse.dropLast ++ forward_line

/-- C8 counterexample: forward `[s, a]` and backward `[s, c]` grown from
seed `s` merge to `[a, s, c]` in the code but to `[c, s, a]` under the
claim's wording. -/
theorem mergeLines_ne_claimSpec :
    mergeLines [(0, 0, 0), (1, 0, 0)] [(0, 0, 0), (2, 0, 0)] ≠
      mergeClaimSpec [(0, 0, 0), (1, 0, 0)] [(0, 0, 0), (2, 0, 0)] := by
  decide

/-- C8: when forward and backward lines both start at the seed point, the
code's merged line is the *reversal* of the sequence described by the
claim - the forward line is reversed, the duplicated seed point is
dropped from the junction, and the backward sequence is appended; the two
orderings contain the same points in opposite order (amended: it is the
forward line, not the backward one, that is reversed before
concatenation). -/
theorem mergeLines_eq_reverse_claimSpec (s : Vec3) (f b : Line) :
    mergeLines (s :: f) (s :: b) = (mergeClaimSpec (s :: f) (s :: b)).reverse := by
  unfold mergeLines mergeClaimSpec
  simp [List.reverse_append, List.dropLast_concat]

/-- The immutable per-run configuration fields of `param` that
`get_line_from_seed` reads (see `param` dict keys in
local_tracking.py). -/
structure TrackingParams where
  min_nbr_pts : Nat
  max_nbr_pts : Nat
  is_single_direction : Bool
  is_keep_single_pts : Bool
  random : Nat
deriving DecidableEq, Repr

/-- Return value of `get_line_from_seed`: an accepted (merged) line, the
retained one-point line `[pos]`, or `None`.  The list-of-lines return of
lines 302-304 cannot occur because `others` is only populated inside the
`len(np.shape(forward)) == 1` branch, which requires `_get_line` to have
returned a ragged list while it only ever returns `None` or a flat list
of 3-vectors (shape `(n, 3)`). -/
inductive SeedOutcome where
  | accepted (l : Line)
  | singlePt (p : Vec3)
  | rejected
deriving DecidableEq, Repr

/-- `tracker.initialize(pos)` (tracker.py lines 25-38): resolve the handler
at `pos` (a bare lookup that can raise), then ask its tracking field for
the initial forward/backward direction pair; `some fb` models success with
both directions, `none` a missing direction (initialize returns False). -/
def initializeOutcome (T : TrackerModel) (pos : Vec3) :
    PyResult (Option (TrackingDirection × TrackingDirection)) :=
  match get_tissue_tracker_function T pos with
  | none => .raised
  | some _ => .ok (T.initDirs pos)

/-- The per-seed `np.random` stream: line 268 seeds the global generator
with `np.uint32(hash((pos, param.random)))`; `stream s n` is the n-th
draw of the generator seeded with `s`, so the whole stream is a pure
function of the seed position and the global run seed. -/
def seedRng (hashFn : Vec3 → Nat → Nat) (stream : Nat → Nat → Nat)
    (pos : Vec3) (globalSeed : Nat) : Nat → Nat :=
  stream (hashFn pos globalSeed)

/-- Draws consumed by the forward growth attempt (even offsets of the
per-seed stream). -/
def fwdRngOf (rng0 : Nat → Nat) : Nat → Nat := fun n => rng0 (2 * n)

/-- Draws consumed by the backward growth attempt (odd offsets). -/
def bwdRngOf (rng0 : Nat → Nat) : Nat → Nat := fun n => rng0 (2 * n + 1)

/-- Exit of the forward `_get_line(tracker, mask, param, True)` call. -/
def forwardOf (T : TrackerModel) (rng0 : Nat → Nat) (param : TrackingParams)
    (pos : Vec3) (fdir : TrackingDirection) : LineExit :=
  lineExitOf T (fwdRngOf rng0) param.max_nbr_pts pos fdir

/-- Exit of the backward `_get_line(tracker, mask, param, False)` call. -/
def backwardOf (T : TrackerModel) (rng0 : Nat → Nat) (param : TrackingParams)
    (pos : Vec3) (bdir : TrackingDirection) : LineExit :=
  lineExitOf T (bwdRngOf rng0) param.max_nbr_pts pos bdir

/-- The `_get_line` return value an exit stands for. -/
def exitToLine : LineExit → Option Line
  | .finished l _ => some l
  | _ => none

/-- Lines 297-315: the acceptance test and its fallbacks.  `forward` and
`backward` hold the two attempts' return values (`some []` models the
`backward = []` of line 296). -/
def finalDecision (param : TrackingParams) (pos : Vec3)
    (forward backward : Option Line) (line : Line) : PyResult SeedOutcome :=
  if 1 < line.length ∧ forward.isSome = true ∧ backward.isSome = true ∧
      param.min_nbr_pts ≤ line.length ∧ line.length ≤ param.max_nbr_pts then
    .ok (.accepted line)
  else if param.is_keep_single_pts = true ∧ param.min_nbr_pts = 1 then
    .ok (.singlePt pos)
  else .ok .rejected

/-- `get_line_from_seed` (local_tracking.py lines 250-315), assembled from
the pieces above. -/
def get_line_from_seed (hashFn : Vec3 → Nat → Nat) (stream : Nat → Nat → Nat)
    (T : TrackerModel) (param : TrackingParams) (pos : Vec3) :
    PyResult SeedOutcome :=
  let rng0 := seedRng hashFn stream pos param.random
  match initializeOutcome T pos with
  | .raised => .raised
  | .ok none =>
    if param.is_keep_single_pts = true ∧ param.min_nbr_pts = 1 then
      .ok (.singlePt pos)
    else .ok .rejected
  | .ok (some fb) =>
    let fwdExit := forwardOf T rng0 param pos fb.1
    if fwdExit = .raisedKey then .raised
    else
      let forward := exitToLine fwdExit
      let line1 := forward.getD []
      if param.is_single_direction = false ∧ forward.isSome = true ∧
          0 < line1.length then
        let bwdExit := backwardOf T rng0 param pos fb.2
        if bwdExit = .raisedKey then .raised
        else
          let backward := exitToLine bwdExit
          let line2 := match backward with
            | some b => if 0 < b.length then mergeLines line1 b else line1
            | none => line1
          finalDecision param pos forward backward line2
      else
        finalDecision param pos forward (some []) line1

/-- What claim C2 requires of an accepted line `l`: the forward attempt
completed with some line `f`, the backward attempt completed - as the
empty line when single-direction mode skips it, as a grown line `b`
otherwise, in which case `l` is the merge - and `l`'s length is within
`[min_nbr_pts, max_nbr_pts]`. -/
def AcceptSpec (hashFn : Vec3 → Nat → Nat) (stream : Nat → Nat → Nat)
    (T : TrackerModel) (param : TrackingParams) (pos : Vec3) (l : Line) : Prop :=
  ∃ fb, initializeOutcome T pos = .ok (some fb) ∧
    (∃ f, exitToLine (forwardOf T (seedRng hashFn stream pos param.random)
        param pos fb.1) = some f ∧
      ((param.is_single_direction = true ∧ l = f) ∨
        (param.is_single_direction = false ∧
          ∃ b, exitToLine (backwardOf T (seedRng hashFn stream pos param.random)
              param pos fb.2) = some b ∧ l = mergeLines f b))) ∧
    param.min_nbr_pts ≤ l.length ∧ l.length ≤ param.max_nbr_pts

/-- Acceptance characterization of the final decision. -/
theorem finalDecision_accepted_iff (param : TrackingParams) (pos : Vec3)
    (forward backward : Option Line) (line : Line) (l : Line) :
    finalDecision param pos forward backward line = .ok (.accepted l) ↔
      (1 < line.length ∧ forward.isSome = true ∧ backward.isSome = true ∧
        param.min_nbr_pts ≤ line.length ∧ line.length ≤ param.max_nbr_pts) ∧
        l = line := by
  unfold finalDecision
  by_cases h : 1 < line.length ∧ forward.isSome = true ∧ backward.isSome = true ∧
      param.min_nbr_pts ≤ line.length ∧ line.length ≤ param.max_nbr_pts
  · rw [if_pos h]
    simp [h, eq_comm]
  · rw [if_neg h]
    by_cases h2 : param.is_keep_single_pts = true ∧ param.min_nbr_pts = 1
    · rw [if_pos h2]
      simp [h]
    · rw [if_neg h2]
      simp [h]

/-- An exit carries a line exactly when it is a finished exit. -/
theorem exitToLine_eq_some (e : LineExit) (f : Line) :
    exitToLine e = some f ↔ ∃ d, e = .finished f d := by
  cases e <;> simp [exitToLine]

/-- A `_get_line` attempt that finishes returns a line of at least two
points (the initial point plus at least one appended point) and at most
`max_nbr_pts` points. -/
theorem lineExitOf_finished_length (T : TrackerModel) (rng : Nat → Nat)
    (maxPts : Nat) (init_pos : Vec3) (dir0 : TrackingDirection)
    (l : Line) (d : Dirs)
    (h : lineExitOf T rng maxPts init_pos dir0 = .finished l d) :
    2 ≤ l.length ∧ l.length ≤ maxPts := by
  obtain ⟨h1, h2, h3⟩ :=
    getLineLoop_finished_length T rng maxPts maxPts 0 [init_pos] [dir0] l d h
  simp at h2
  exact ⟨h2, h3⟩


/-- C2: a seed's merged line is accepted exactly when the forward attempt
completed, the backward attempt completed (as the empty line when
single-direction mode skips it), and the merged length lies within
`[min_nbr_pts, max_nbr_pts]`; every accepted line satisfies those length
bounds.  (The source's additional `len(line) > 1` conjunct is implied: a
completed forward attempt always has at least two points.) -/
theorem seed_accept_iff (hashFn : Vec3 → Nat → Nat) (stream : Nat → Nat → Nat)
    (T : TrackerModel) (param : TrackingParams) (pos : Vec3) :
    (∀ l : Line, get_line_from_seed hashFn stream T param pos = .ok (.accepted l) →
        param.min_nbr_pts ≤ l.length ∧ l.length ≤ param.max_nbr_pts) ∧
      ∀ l : Line, get_line_from_seed hashFn stream T param pos = .ok (.accepted l) ↔
        AcceptSpec hashFn stream T param pos l := by
  have main : ∀ l : Line,
      get_line_from_seed hashFn stream T param pos = .ok (.accepted l) ↔
        AcceptSpec hashFn stream T param pos l := by
    intro l
    unfold get_line_from_seed AcceptSpec
    cases hI : initializeOutcome T pos with
    | raised => simp [hI]
    | ok o =>
      cases o with
      | none =>
        by_cases hk : param.is_keep_single_pts = true ∧ param.min_nbr_pts = 1
        · simp [hI, hk]
        · simp [hI, hk]
      | some fb =>
        simp only [hI, PyResult.ok.injEq, Option.some.injEq, exists_eq_left,
          exists_eq_left']
        cases hF : forwardOf T (seedRng hashFn stream pos param.random) param pos fb.1 with
        | raisedKey => simp [hF, exitToLine]
        | finished f d =>
          obtain ⟨hf2, hfmax⟩ := lineExitOf_finished_length T _ _ _ _ f d hF
          have hf1 : 1 < f.length := by omega
          simp only [exitToLine]
          rw [if_neg (by simp)]
          simp only [Option.getD_some, Option.isSome_some]
          cases hsd : param.is_single_direction with
          | true =>
            rw [if_neg (by simp [hsd])]
            rw [finalDecision_accepted_iff]
            constructor
            · rintro ⟨⟨-, -, -, hmin, hmax⟩, rfl⟩
              exact ⟨⟨_, rfl, Or.inl ⟨rfl, rfl⟩⟩, hmin, hmax⟩
            · rintro ⟨⟨f', hf', hdisj⟩, hmin, hmax⟩
              obtain rfl : f = f' := Option.some.inj hf'
              rcases hdisj with ⟨-, rfl⟩ | ⟨hc, -⟩
              · exact ⟨⟨hf1, rfl, rfl, hmin, hmax⟩, rfl⟩
              · exact absurd hc (by simp)
          | false =>
            rw [if_pos ⟨rfl, trivial, by omega⟩]
            cases hB : backwardOf T (seedRng hashFn stream pos param.random) param pos fb.2 with
            | raisedKey =>
              rw [if_pos rfl]
              constructor
              · intro h; exact absurd h (by simp)
              · rintro ⟨⟨f', hf', hdisj⟩, -, -⟩
                rcases hdisj with ⟨hc, -⟩ | ⟨-, b', hb', -⟩
                · exact absurd hc (by simp)
                · simp [exitToLine] at hb'
            | finished b d2 =>
              have hB' : lineExitOf T (bwdRngOf (seedRng hashFn stream pos param.random))
                  param.max_nbr_pts pos fb.2 = .finished b d2 := hB
              obtain ⟨hb2, hbmax⟩ := lineExitOf_finished_length T _ _ _ _ b d2 hB'
              rw [if_neg (by simp)]
              simp only [exitToLine]
              rw [if_pos (by omega)]
              rw [finalDecision_accepted_iff]
              have hmlen : (mergeLines f b).length = f.length - 1 + b.length := by
                simp [mergeLines]
              constructor
              · rintro ⟨⟨-, -, -, hmin, hmax⟩, rfl⟩
                exact ⟨⟨_, rfl, Or.inr ⟨trivial, _, rfl, rfl⟩⟩, hmin, hmax⟩
              · rintro ⟨⟨f', hf', hdisj⟩, hmin, hmax⟩
                obtain rfl : f = f' := Option.some.inj hf'
                rcases hdisj with ⟨hc, -⟩ | ⟨-, b', hb', rfl⟩
                · exact absurd hc (by simp)
                · obtain rfl : b = b' := Option.some.inj hb'
                  exact ⟨⟨by omega, rfl, rfl, hmin, hmax⟩, rfl⟩
            | maxReached =>
              rw [if_neg (by simp)]
              simp only [exitToLine]
              rw [finalDecision_accepted_iff]
              constructor
              · rintro ⟨⟨-, -, hc, -⟩, -⟩; exact absurd hc (by simp)
              · rintro ⟨⟨f', hf', hdisj⟩, -, -⟩
                rcases hdisj with ⟨hc, -⟩ | ⟨-, b', hb', -⟩
                · exact absurd hc (by simp)
                · exact absurd hb' (by simp)
            | nullPropagate =>
              rw [if_neg (by simp)]
              simp only [exitToLine]
              rw [finalDecision_accepted_iff]
              constructor
              · rintro ⟨⟨-, -, hc, -⟩, -⟩; exact absurd hc (by simp)
              · rintro ⟨⟨f', hf', hdisj⟩, -, -⟩
                rcases hdisj with ⟨hc, -⟩ | ⟨-, b', hb', -⟩
                · exact absurd hc (by simp)
                · exact absurd hb' (by simp)
            | nullAppend =>
              rw [if_neg (by simp)]
              simp only [exitToLine]
              rw [finalDecision_accepted_iff]
              constructor
              · rintro ⟨⟨-, -, hc, -⟩, -⟩; exact absurd hc (by simp)
              · rintro ⟨⟨f', hf', hdisj⟩, -, -⟩
                rcases hdisj with ⟨hc, -⟩ | ⟨-, b', hb', -⟩
                · exact absurd hc (by simp)
                · exact absurd hb' (by simp)
            | fuelOut =>
              rw [if_neg (by simp)]
              simp only [exitToLine]
              rw [finalDecision_accepted_iff]
              constructor
              · rintro ⟨⟨-, -, hc, -⟩, -⟩; exact absurd hc (by simp)
              · rintro ⟨⟨f', hf', hdisj⟩, -, -⟩
                rcases hdisj with ⟨hc, -⟩ | ⟨-, b', hb', -⟩
                · exact absurd hc (by simp)
                · exact absurd hb' (by simp)
        | maxReached =>
          simp only [exitToLine]
          rw [if_neg (by simp)]
          simp only [Option.getD_none, Option.isSome_none]
          rw [if_neg (by simp)]
          rw [finalDecision_accepted_iff]
          constructor
          · rintro ⟨⟨hc, -⟩, -⟩; exact absurd hc (by simp)
          · rintro ⟨⟨f', hf', -⟩, -, -⟩; exact absurd hf' (by simp)
        | nullPropagate =>
          simp only [exitToLine]
          rw [if_neg (by simp)]
          simp only [Option.getD_none, Option.isSome_none]
          rw [if_neg (by simp)]
          rw [finalDecision_accepted_iff]
          constructor
          · rintro ⟨⟨hc, -⟩, -⟩; exact absurd hc (by simp)
          · rintro ⟨⟨f', hf', -⟩, -, -⟩; exact absurd hf' (by simp)
        | nullAppend =>
          simp only [exitToLine]
          rw [if_neg (by simp)]
          simp only [Option.getD_none, Option.isSome_none]
          rw [if_neg (by simp)]
          rw [finalDecision_accepted_iff]
          constructor
          · rintro ⟨⟨hc, -⟩, -⟩; exact absurd hc (by simp)
          · rintro ⟨⟨f', hf', -⟩, -, -⟩; exact absurd hf' (by simp)
        | fuelOut =>
          simp only [exitToLine]
          rw [if_neg (by simp)]
          simp only [Option.getD_none, Option.isSome_none]
          rw [if_neg (by simp)]
          rw [finalDecision_accepted_iff]
          constructor
          · rintro ⟨⟨hc, -⟩, -⟩; exact absurd hc (by simp)
          · rintro ⟨⟨f', hf', -⟩, -, -⟩; exact absurd hf' (by simp)
  refine ⟨fun l h => ?_, main⟩
  obtain ⟨-, -, -, hmin, hmax⟩ := (main l).mp h
  exact ⟨hmin, hmax⟩

/-- A tracker whose atlas reports gray matter (label 2) everywhere and
whose direction field always proposes the same segment. -/
def gmTracker : TrackerModel where
  labels := [2]
  atlasValue := fun _ => 2
  propagate := fun _ _ _ => some ((1, 0, 0), ⟨(1, 0, 0), 0⟩)
  initDirs := fun _ => some (⟨(1, 0, 0), 0⟩, ⟨(2, 0, 0), 0⟩)
  inBound := fun _ => true

/-- A parameter record accepting lines of 2 to 5 points, bidirectional,
no single-point retention. -/
def acceptParam : TrackingParams :=
  { min_nbr_pts := 2, max_nbr_pts := 5, is_single_direction := false,
    is_keep_single_pts := false, random := 0 }

/-- C2 witness: on `gmTracker` the seed at the origin grows one forward and
one backward point, merges to a 3-point line, and is accepted within the
bounds. -/
theorem seed_accept_iff_witness :
    get_line_from_seed (fun _ _ => 0) (fun _ _ => 0) gmTracker acceptParam (0, 0, 0) =
        .ok (.accepted [(1, 0, 0), (0, 0, 0), (1, 0, 0)]) ∧
      acceptParam.min_nbr_pts ≤ ([(1, 0, 0), (0, 0, 0), (1, 0, 0)] : Line).length ∧
        ([(1, 0, 0), (0, 0, 0), (1, 0, 0)] : Line).length ≤ acceptParam.max_nbr_pts := by
  have h : get_line_from_seed (fun _ _ => 0) (fun _ _ => 0) gmTracker acceptParam (0, 0, 0) =
      .ok (.accepted [(1, 0, 0), (0, 0, 0), (1, 0, 0)]) := by decide
  exact ⟨h, (seed_accept_iff (fun _ _ => 0) (fun _ _ => 0) gmTracker acceptParam
    (0, 0, 0)).1 _ h⟩

/-! ## Cover-all-seeds driver `get_streamlines` (local_tracking.py 182-248) -/

/-- `chunk_size = int(param['nbr_seeds'] / param['processes'])` (line 209). -/
def chunkSize (nbrSeeds processes : Nat) : Nat := nbrSeeds / processes

/-- `first_seed_of_chunk = chunk_id * chunk_size + skip` (line 212). -/
def firstSeedOfChunk (nbrSeeds processes skip chunkId : Nat) : Nat :=
  chunkId * chunkSize nbrSeeds processes + skip

/-- Seeds a chunk processes: the last chunk additionally takes the
remainder `nbr_seeds % processes` (lines 216-217). -/
def chunkSeedCount (nbrSeeds processes chunkId : Nat) : Nat :=
  chunkSize nbrSeeds processes +
    (if chunkId = processes - 1 then nbrSeeds % processes else 0)

/-- The absolute seed indices chunk `chunkId` processes:
`first_seed_of_chunk + s` for `s` ranging over the chunk (lines 218-225). -/
def chunkSeedIndices (nbrSeeds processes skip chunkId : Nat) : List Nat :=
  (List.range (chunkSeedCount nbrSeeds processes chunkId)).map
    (fun s => firstSeedOfChunk nbrSeeds processes skip chunkId + s)

/-- The streamlines `get_streamlines` appends for the seed of absolute
index `k` (lines 226-247).  `seedAt` is the seeding volume's deterministic
mapping from an absolute seed index to a position (the `Seed` class is an
external collaborator, modelled from the spec's seed-generator contract);
`comp` is the optional compression.  An accepted line is appended once;
the retained single-point line `[pos]` has `np.shape` `(1, 3)` and is
appended the same way; `None` appends nothing; the ragged
`len(np.shape(line)) == 1` branch cannot trigger (see `SeedOutcome`). -/
def outputsOfSeed (hashFn : Vec3 → Nat → Nat) (stream : Nat → Nat → Nat)
    (T : TrackerModel) (param : TrackingParams) (seedAt : Nat → Vec3)
    (compress : Bool) (comp : Line → Line) (k : Nat) : List Line :=
  match get_line_from_seed hashFn stream T param (seedAt k) with
  | .ok (.accepted l) => [if compress then comp l else l]
  | .ok (.singlePt p) => [if compress then comp [p] else [p]]
  | .ok .rejected => []
  | .raised => []

/-- One chunk's streamline output, in generation order. -/
def getStreamlinesChunk (hashFn : Vec3 → Nat → Nat) (stream : Nat → Nat → Nat)
    (T : TrackerModel) (param : TrackingParams) (seedAt : Nat → Vec3)
    (compress : Bool) (comp : Line → Line)
    (nbrSeeds processes skip chunkId : Nat) : List Line :=
  (chunkSeedIndices nbrSeeds processes skip chunkId).flatMap
    (outputsOfSeed hashFn stream T param seedAt compress comp)

/-- The cover-all-seeds driver: chunk outputs concatenated in chunk order
(`itertools.chain(*lines_per_process)`, line 91, over `chunk_id =
np.arange(nbr_processes)`). -/
def coverAllSeeds (hashFn : Vec3 → Nat → Nat) (stream : Nat → Nat → Nat)
    (T : TrackerModel) (param : TrackingParams) (seedAt : Nat → Vec3)
    (compress : Bool) (comp : Line → Line)
    (nbrSeeds processes skip : Nat) : List Line :=
  (List.range processes).flatMap
    (getStreamlinesChunk hashFn stream T param seedAt compress comp
      nbrSeeds processes skip)

/-- A chunk's index list is a contiguous range starting at
`chunk_id * chunk_size + skip`. -/
theorem chunkSeedIndices_eq_range' (nbrSeeds processes skip chunkId : Nat) :
    chunkSeedIndices nbrSeeds processes skip chunkId =
      List.range' (firstSeedOfChunk nbrSeeds processes skip chunkId)
        (chunkSeedCount nbrSeeds processes chunkId) := by
  unfold chunkSeedIndices
  rw [List.range'_eq_map_range]

/-- The first `k` chunks (all of size `chunk_size`, for `k` below the last
chunk id) cover exactly the contiguous range of `k * chunk_size` indices
from `skip`. -/
theorem chunks_prefix_cover (nbrSeeds processes skip : Nat) :
    ∀ k, k ≤ processes - 1 →
      (List.range k).flatMap (chunkSeedIndices nbrSeeds processes skip) =
        List.range' skip (k * chunkSize nbrSeeds processes)
  | 0, _ => by simp
  | k + 1, hk => by
    rw [List.range_succ, List.flatMap_append,
      chunks_prefix_cover nbrSeeds processes skip k (by omega)]
    simp only [List.flatMap_cons, List.flatMap_nil, List.append_nil]
    rw [chunkSeedIndices_eq_range']
    unfold chunkSeedCount firstSeedOfChunk
    rw [if_neg (by omega)]
    have happ := List.range'_append_1 skip (k * chunkSize nbrSeeds processes)
      (chunkSize nbrSeeds processes)
    rw [Nat.add_comm skip (k * chunkSize nbrSeeds processes)] at happ
    rw [Nat.add_zero, happ, Nat.succ_mul]
    congr 1
    omega

/-- All `P` chunks together cover exactly the absolute indices
`skip, skip+1, ..., skip+nbr_seeds-1`, in order. -/
theorem chunks_cover (nbrSeeds processes skip : Nat) (hP : 1 ≤ processes) :
    (List.range processes).flatMap (chunkSeedIndices nbrSeeds processes skip) =
      List.range' skip nbrSeeds := by
  obtain ⟨P', rfl⟩ : ∃ P', processes = P' + 1 := ⟨processes - 1, by omega⟩
  rw [List.range_succ, List.flatMap_append,
    chunks_prefix_cover nbrSeeds (P' + 1) skip P' (by omega)]
  simp only [List.flatMap_cons, List.flatMap_nil, List.append_nil]
  rw [chunkSeedIndices_eq_range']
  unfold chunkSeedCount firstSeedOfChunk
  rw [Nat.add_sub_cancel, if_pos rfl]
  have happ := List.range'_append_1 skip (P' * chunkSize nbrSeeds (P' + 1))
    (chunkSize nbrSeeds (P' + 1) + nbrSeeds % (P' + 1))
  rw [Nat.add_comm skip (P' * chunkSize nbrSeeds (P' + 1))] at happ
  rw [happ]
  congr 1
  have hdm := Nat.div_add_mod nbrSeeds (P' + 1)
  unfold chunkSize
  rw [Nat.succ_mul] at hdm
  omega

/-- C1: the cover-all-seeds driver is deterministic in the worker count:
chunk `i` processes the contiguous absolute seed indices starting at
`i * chunk_size + skip`, each seed's whole random stream is
`stream (hash (pos, global_seed))` - a pure function of the seed position
and the global seed, never of a worker-local counter - and therefore the
driver's output with `P ≥ 1` workers equals its output with one worker,
as a list and hence as a multiset. -/
theorem cover_all_seeds_deterministic (hashFn : Vec3 → Nat → Nat)
    (stream : Nat → Nat → Nat) (T : TrackerModel) (param : TrackingParams)
    (seedAt : Nat → Vec3) (compress : Bool) (comp : Line → Line)
    (nbrSeeds processes skip : Nat) (hP : 1 ≤ processes) :
    (∀ chunkId, chunkSeedIndices nbrSeeds processes skip chunkId =
        List.range' (chunkId * chunkSize nbrSeeds processes + skip)
          (chunkSeedCount nbrSeeds processes chunkId)) ∧
      coverAllSeeds hashFn stream T param seedAt compress comp
          nbrSeeds processes skip =
        coverAllSeeds hashFn stream T param seedAt compress comp
          nbrSeeds 1 skip ∧
      (↑(coverAllSeeds hashFn stream T param seedAt compress comp
          nbrSeeds processes skip) : Multiset Line) =
        ↑(coverAllSeeds hashFn stream T param seedAt compress comp
          nbrSeeds 1 skip) := by
  have hlist : coverAllSeeds hashFn stream T param seedAt compress comp
      nbrSeeds processes skip =
      coverAllSeeds hashFn stream T param seedAt compress comp nbrSeeds 1 skip := by
    unfold coverAllSeeds getStreamlinesChunk
    rw [← List.flatMap_assoc, ← List.flatMap_assoc,
      chunks_cover nbrSeeds processes skip hP,
      chunks_cover nbrSeeds 1 skip (by omega)]
  exact ⟨fun cid => chunkSeedIndices_eq_range' nbrSeeds processes skip cid,
    hlist, by rw [hlist]⟩

/-- C1 witness: 7 seeds, 3 workers, skip 2, on the concrete gray-matter
tracker. -/
theorem cover_all_seeds_deterministic_witness :
    1 ≤ 3 ∧
      ((∀ chunkId, chunkSeedIndices 7 3 2 chunkId =
          List.range' (chunkId * chunkSize 7 3 + 2) (chunkSeedCount 7 3 chunkId)) ∧
        coverAllSeeds (fun _ _ => 0) (fun _ _ => 0) gmTracker acceptParam
            (fun _ => (0, 0, 0)) false id 7 3 2 =
          coverAllSeeds (fun _ _ => 0) (fun _ _ => 0) gmTracker acceptParam
            (fun _ => (0, 0, 0)) false id 7 1 2 ∧
        (↑(coverAllSeeds (fun _ _ => 0) (fun _ _ => 0) gmTracker acceptParam
            (fun _ => (0, 0, 0)) false id 7 3 2) : Multiset Line) =
          ↑(coverAllSeeds (fun _ _ => 0) (fun _ _ => 0) gmTracker acceptParam
            (fun _ => (0, 0, 0)) false id 7 1 2)) := by
  exact ⟨by decide, cover_all_seeds_deterministic (fun _ _ => 0) (fun _ _ => 0)
    gmTracker acceptParam (fun _ => (0, 0, 0)) false id 7 3 2 (by decide)⟩

/-! ## Fixed-count driver `get_n_streamlines` (local_tracking.py 130-179) -/

/-- Loop state of `get_n_streamlines`: the iteration counter `i` (line
151), the collected streamlines (line 152) and `skip`, initialized to 0
(line 154). -/
structure NState where
  i : Nat
  streamlines : List Line
  skip : Nat
deriving DecidableEq, Repr

/-- The state before the first iteration. -/
def nInit : NState := { i := 0, streamlines := [], skip := 0 }

/-- The while-loop guard of lines 159-160:
`len(streamlines) < param['nbr_streamlines'] and
skip < param['nbr_streamlines'] * max_tries`. -/
def nGuard (nbrStreamlines maxTries : Nat) (s : NState) : Bool :=
  decide (s.streamlines.length < nbrStreamlines) &&
    decide (s.skip < nbrStreamlines * maxTries)

/-- One iteration of the loop body (lines 161-178): try the seed of
absolute index `first_seed_of_chunk + i` (`lineAt` folds `get_next_pos`,
`get_line_from_seed` and the optional compression into one lookup),
append the line on success, increment `i`.  No statement of the body
assigns `skip`. -/
def nStep (lineAt : Nat → Option Line) (s : NState) : NState :=
  { i := s.i + 1,
    streamlines := match lineAt s.i with
      | some l => s.streamlines ++ [l]
      | none => s.streamlines,
    skip := s.skip }

/-- C4 (code bug): on an input where no seed ever yields a valid line, the
guard of the `get_n_streamlines` loop is still true after every number of
iterations, for any positive `N` and `max_tries` - `skip` stays 0, so the
retry budget `N * max_tries` never exhausts and the loop never
terminates, where the claim (and the spec's budget) demands termination
after at most `N * max_tries` attempts. -/
theorem get_n_streamlines_guard_never_falls (nbrStreamlines maxTries : Nat)
    (hN : 0 < nbrStreamlines) (hT : 0 < maxTries) (k : Nat) :
    nGuard nbrStreamlines maxTries (Nat.iterate (nStep (fun _ => none)) k nInit) = true := by
  have hstate : ∀ m, Nat.iterate (nStep (fun _ => none)) m nInit =
      { i := m, streamlines := [], skip := 0 } := by
    intro m
    induction m with
    | zero => rfl
    | succ m ih => rw [Function.iterate_succ_apply', ih]; rfl
  rw [hstate]
  unfold nGuard
  simp only [List.length_nil, Bool.and_eq_true, decide_eq_true_eq]
  exact ⟨hN, Nat.mul_pos hN hT⟩

/-- C4 witness: with a budget of `1 * 100` attempts, the guard still holds
after 200 failed attempts. -/
theorem get_n_streamlines_guard_never_falls_witness :
    0 < 1 ∧ 0 < 100 ∧
      nGuard 1 100 (Nat.iterate (nStep (fun _ => none)) 200 nInit) = true := by
  exact ⟨by decide, by decide,
    get_n_streamlines_guard_never_falls 1 100 (by decide) (by decide) 200⟩
